import Mathlib

/-!
# Multi-region object replication: event translation and dispatch

A shallow embedding of `func.go` of `oci-objectstorage-multiregioner`.

* Go strings are Lean strings; a Go `error` is `Option String` (the message,
  `none` for `nil`); a Go `(T, error)` result is a pair.
* The outside world is explicit.  `Platform` holds what the invocation reads
  from it: the process environment (`os.LookupEnv`), the outcome of building
  the resource-principal provider and the object-storage client, and the
  answer of the object-storage service to each call, which may depend on the
  calls issued before it.  `World` holds what the invocation does to it: the
  storage calls issued, the errors handed to `loglib.Sugar.Error`, and the
  chunks written to the function's output writer, each oldest first.
* `fmt.Println` diagnostics on standard output are not part of the model.
-/

namespace Multiregioner

/-! ## Constants -/

def envBucketName : String := "OCI_BUCKETNAME"
def envSourceRegion : String := "OCI_SOURCE_REGION"
def envDestinationRegions : String := "OCI_DESTINATION_REGIONS"
def actionTypeCreate : String := "com.oraclecloud.objectstorage.createobject"
def actionTypeUpdate : String := "com.oraclecloud.objectstorage.updateobject"
def actionTypeDelete : String := "com.oraclecloud.objectstorage.deleteobject"

/-! ## Data model -/

/-- The invocation context handed to `fnMain`; only its identity matters. -/
structure Context where
  id : Nat
deriving DecidableEq, Repr

/-- The `additionalDetails` object of an event's `data`. -/
structure AdditionalDetails where
  Namespace : String := ""
  PublicAccessType : String := ""
  ETag : String := ""
deriving DecidableEq, Repr

/-- The `data` object of an event (tags, which the code never reads, left out). -/
structure EventData where
  CompartmentID : String := ""
  CompartmentName : String := ""
  ResourceName : String := ""
  ResourceID : String := ""
  AvailabilityDomain : String := ""
  AdditionalDetails : AdditionalDetails := {}
deriving DecidableEq, Repr

/-- The decoded event, `EventsInput`.  A field absent from the JSON keeps the
zero value, the empty string. -/
structure EventsInput where
  CloudEventsVersion : String := ""
  EventID : String := ""
  EventType : String := ""
  Source : String := ""
  EventTypeVersion : String := ""
  ContentType : String := ""
  Data : EventData := {}
deriving DecidableEq, Repr

/-- The replication intent, `Action`.  The defaults are Go's zero value. -/
structure Action where
  Namespace : String := ""
  BucketName : String := ""
  ObjectName : String := ""
  ActionType : String := ""
  SourceRegion : String := ""
  DestinationRegions : List String := []
  ctx : Option Context := none
deriving DecidableEq, Repr

/-- The fields of `objectstorage.CopyObjectDetails` that the code sets. -/
structure CopyObjectDetails where
  SourceObjectName : String
  DestinationRegion : String
  DestinationNamespace : String
  DestinationBucket : String
  DestinationObjectName : String
deriving DecidableEq, Repr

/-- The fields of `objectstorage.CopyObjectRequest` that the code sets. -/
structure CopyObjectRequest where
  NamespaceName : String
  BucketName : String
  CopyObjectDetails : CopyObjectDetails
deriving DecidableEq, Repr

/-- The fields of `objectstorage.DeleteObjectRequest` that the code sets. -/
structure DeleteObjectRequest where
  NamespaceName : String
  BucketName : String
  ObjectName : String
deriving DecidableEq, Repr

/-- The object-storage client; the code only ever touches its region. -/
structure Client where
  Region : String := ""
deriving DecidableEq, Repr

/-- `client.SetRegion(region)`. -/
def Client.SetRegion (_client : Client) (region : String) : Client :=
  { Region := region }

/-- One call to the object-storage service: the context passed, the region the
client points at when the call is made, and the request. -/
inductive Call where
  | CopyObject (ctx : Option Context) (clientRegion : String) (request : CopyObjectRequest)
  | DeleteObject (ctx : Option Context) (clientRegion : String) (request : DeleteObjectRequest)
deriving DecidableEq, Repr

/-- What one invocation reads from the outside world. -/
structure Platform where
  /-- The process environment: `os.LookupEnv`, `none` for an unset variable. -/
  LookupEnv : String → Option String
  /-- The error of `auth.ResourcePrincipalConfigurationProvider()`. -/
  providerErr : Option String
  /-- The error of `objectstorage.NewObjectStorageClientWithConfigurationProvider`. -/
  clientErr : Option String
  /-- The error the service returns for a call, given the calls issued before it. -/
  respond : List Call → Call → Option String

/-- What one invocation does to the outside world, oldest first. -/
structure World where
  calls : List Call := []
  logged : List String := []
  out : List String := []
deriving DecidableEq, Repr

/-- `loglib.Sugar.Error(err)`. -/
def World.logError (w : World) (err : String) : World :=
  { w with logged := w.logged ++ [err] }

/-- Issue a storage call: record it and return the service's answer. -/
def World.issue (p : Platform) (w : World) (c : Call) : World × Option String :=
  ({ w with calls := w.calls ++ [c] }, p.respond w.calls c)

/-! ## `strings.Split(s, ",")` -/

/-- Go's `strings.Split` with separator `","`, on the characters of the string:
the text before the first comma is the first token and what follows that comma
is split in turn; a text without a comma is its own single token.  (Go cuts the
UTF-8 bytes; the comma is a single byte that occurs in no longer encoding, so
cutting the characters gives the same tokens.) -/
def splitComma : List Char → List (List Char)
  | [] => [[]]
  | c :: cs =>
    if c = ',' then [] :: splitComma cs
    else
      match splitComma cs with
      | [] => [[c]]
      | t :: ts => (c :: t) :: ts

/-- `strings.Split(s, ",")`. -/
def stringsSplit (s : String) : List String :=
  (splitComma s.data).map String.mk

/-! ## The program -/

/-- `generateAction`: the intent of an event under the environment.  As in the
source, an early error return carries the intent as filled in so far. -/
def generateAction (LookupEnv : String → Option String) (ctx : Context)
    (input : EventsInput) : Action × Option String :=
  let action : Action := {}
  -- Namespace
  let action := { action with Namespace := input.Data.AdditionalDetails.Namespace }
  -- BucketName
  match LookupEnv envBucketName with
  | none =>
    (action, some ("can not read envBucketName from environment variable " ++ envBucketName))
  | some bucketName =>
    let action := { action with BucketName := bucketName }
    -- ObjectName
    let action := { action with ObjectName := input.Data.ResourceName }
    -- ActionType
    let action := { action with ActionType := input.EventType }
    -- SourceRegion
    match LookupEnv envSourceRegion with
    | none =>
      (action, some ("can not read envSourceRegion from environment variable " ++ envSourceRegion))
    | some sourceRegion =>
      let action := { action with SourceRegion := sourceRegion }
      -- DestinationRegions
      match LookupEnv envDestinationRegions with
      | none =>
        (action, some ("can not read envDestinationRegions from environment variable "
          ++ envDestinationRegions))
      | some destinationRegionString =>
        let destinationRegions := stringsSplit destinationRegionString
        let action := { action with DestinationRegions := destinationRegions }
        -- Context
        let action := { action with ctx := some ctx }
        (action, none)

/-- The `for _, dest := range` loop of `runCreate`. -/
def runCreateLoop (p : Platform) (action : Action) (client : Client) :
    List String → World → World × Option String
  | [], w => (w, none)
  | dest :: rest, w =>
    let copyObjectDetail : CopyObjectDetails :=
      { SourceObjectName := action.ObjectName
        DestinationRegion := dest
        DestinationNamespace := action.Namespace
        DestinationBucket := action.BucketName
        DestinationObjectName := action.ObjectName }
    let request : CopyObjectRequest :=
      { NamespaceName := action.Namespace
        BucketName := action.BucketName
        CopyObjectDetails := copyObjectDetail }
    match w.issue p (Call.CopyObject action.ctx client.Region request) with
    | (w, some err) => (w.logError err, some err)
    | (w, none) => runCreateLoop p action client rest w

/-- `runCreate`. -/
def runCreate (p : Platform) (w : World) (action : Action) : World × Option String :=
  match p.providerErr with
  | some err => (w.logError err, some err)
  | none =>
    let client : Client := {}
    let client := client.SetRegion action.SourceRegion
    match p.clientErr with
    | some err => (w.logError err, some err)
    | none => runCreateLoop p action client action.DestinationRegions w

/-- The `for _, dest := range` loop of `runDelete`; the client is threaded
through because every iteration re-points it. -/
def runDeleteLoop (p : Platform) (action : Action) :
    List String → Client → World → World × Option String
  | [], _, w => (w, none)
  | dest :: rest, client, w =>
    let request : DeleteObjectRequest :=
      { NamespaceName := action.Namespace
        BucketName := action.BucketName
        ObjectName := action.ObjectName }
    let client := client.SetRegion dest
    match w.issue p (Call.DeleteObject action.ctx client.Region request) with
    | (w, some err) => (w.logError err, some err)
    | (w, none) => runDeleteLoop p action rest client w

/-- `runDelete`. -/
def runDelete (p : Platform) (w : World) (action : Action) : World × Option String :=
  match p.providerErr with
  | some err => (w.logError err, some err)
  | none =>
    let client : Client := {}
    let client := client.SetRegion action.SourceRegion
    match p.clientErr with
    | some err => (w.logError err, some err)
    | none => runDeleteLoop p action action.DestinationRegions client w

/-- `runAction`: the `switch` on the action type. -/
def runAction (p : Platform) (w : World) (action : Action) : World × Option String :=
  if action.ActionType = actionTypeCreate ∨ action.ActionType = actionTypeUpdate then
    runCreate p w action
  else if action.ActionType = actionTypeDelete then
    runDelete p w action
  else
    (w, some ("do nothing. ActionType : " ++ action.ActionType))

/-- `fnMain` on the decoded event (the source ignores the decoder's error, so
`input` is whatever `Decode` left in the struct), from a fresh world. -/
def fnMain (p : Platform) (ctx : Context) (input : EventsInput) : World :=
  let w : World := {}
  match generateAction p.LookupEnv ctx input with
  | (_, some err) => w.logError err
  | (action, none) =>
    match runAction p w action with
    | (w, some err) => w.logError err
    | (w, none) => { w with out := w.out ++ ["Done!"] }

/-! ## Vocabulary of the statements -/

/-- The copy call `runCreate` builds for the destination `dest`. -/
def copyCall (action : Action) (dest : String) : Call :=
  Call.CopyObject action.ctx action.SourceRegion
    { NamespaceName := action.Namespace
      BucketName := action.BucketName
      CopyObjectDetails :=
        { SourceObjectName := action.ObjectName
          DestinationRegion := dest
          DestinationNamespace := action.Namespace
          DestinationBucket := action.BucketName
          DestinationObjectName := action.ObjectName } }

/-- The delete call `runDelete` builds for the destination `dest`. -/
def deleteCall (action : Action) (dest : String) : Call :=
  Call.DeleteObject action.ctx dest
    { NamespaceName := action.Namespace
      BucketName := action.BucketName
      ObjectName := action.ObjectName }

/-- The answer of the service to the `i`-th call of `cs`, when the calls
`before` and then the calls of `cs` are issued in this order (`none` as well
when `cs` has no `i`-th call). -/
def answerAt (p : Platform) (before cs : List Call) (i : Nat) : Option String :=
  match cs[i]? with
  | none => none
  | some c => p.respond (before ++ cs.take i) c

/-- Issue the calls of a list in order until one is answered with an error,
which is logged and returned. -/
def issueAll (p : Platform) : List Call → World → World × Option String
  | [], w => (w, none)
  | c :: cs, w =>
    match w.issue p c with
    | (w, some err) => (w.logError err, some err)
    | (w, none) => issueAll p cs w

/-- The calls the dispatch of an intent issues when none of them fails: one
delete call per destination for the delete-object type, one copy call per
destination otherwise. -/
def plannedCalls (action : Action) : List Call :=
  if action.ActionType = actionTypeDelete then
    action.DestinationRegions.map (deleteCall action)
  else
    action.DestinationRegions.map (copyCall action)

/-- The required variables, in the order `generateAction` looks them up. -/
def requiredVariables : List String :=
  [envBucketName, envSourceRegion, envDestinationRegions]

/-- The first required variable, in lookup order, that the environment does
not set. -/
def firstMissing (LookupEnv : String → Option String) : Option String :=
  requiredVariables.find? (fun name => (LookupEnv name).isNone)

/-! ## Concrete inputs -/

/-- An environment that sets exactly those of the three variables given. -/
def envOf (bucket source destinations : Option String) : String → Option String :=
  fun name =>
    if name = envBucketName then bucket
    else if name = envSourceRegion then source
    else if name = envDestinationRegions then destinations
    else none

/-- A platform on which the client is set up and every storage call succeeds. -/
def healthyPlatform (destinations : String) : Platform :=
  { LookupEnv := envOf (some "bucket") (some "src-1") (some destinations)
    providerErr := none
    clientErr := none
    respond := fun _ _ => none }

/-- A platform on which every storage call aimed at `eu-1` is answered with an
error and every other call succeeds. -/
def euDownPlatform : Platform :=
  { LookupEnv := envOf (some "bucket") (some "src-1") (some "us-1,eu-1,ap-1")
    providerErr := none
    clientErr := none
    respond := fun _ c =>
      match c with
      | Call.CopyObject _ _ request =>
        if request.CopyObjectDetails.DestinationRegion = "eu-1" then some "eu-1 is down" else none
      | Call.DeleteObject _ region _ =>
        if region = "eu-1" then some "eu-1 is down" else none }

/-- An event of the given type about object `photo.png` in namespace `ns`. -/
def eventOf (eventType : String) : EventsInput :=
  { EventType := eventType
    Data := { ResourceName := "photo.png", AdditionalDetails := { Namespace := "ns" } } }

/-- An intent of the given type for `photo.png` with the given destinations. -/
def intentOf (actionType : String) (destinations : List String) : Action :=
  { Namespace := "ns"
    BucketName := "bucket"
    ObjectName := "photo.png"
    ActionType := actionType
    SourceRegion := "src-1"
    DestinationRegions := destinations
    ctx := some ⟨7⟩ }

/-- A delete intent for three destinations, `eu-1` in the middle. -/
def deleteThree : Action :=
  intentOf actionTypeDelete ["us-1", "eu-1", "ap-1"]

/-- An event whose type, object name and namespace carry blanks and capitals. -/
def paddedEvent : EventsInput :=
  { EventType := " Mixed.Case "
    Data := { ResourceName := " Dir/Photo.PNG ", AdditionalDetails := { Namespace := " NS " } } }

/-! ## The two loops -/

theorem runCreateLoop_eq_issueAll (p : Platform) (action : Action) (client : Client)
    (hr : client.Region = action.SourceRegion) (dests : List String) (w : World) :
    runCreateLoop p action client dests w = issueAll p (dests.map (copyCall action)) w := by
  induction dests generalizing w with
  | nil => rfl
  | cons dest rest ih =>
    simp only [runCreateLoop, issueAll, List.map_cons, World.issue, hr, ih]
    rfl

theorem runDeleteLoop_eq_issueAll (p : Platform) (action : Action) (dests : List String)
    (client : Client) (w : World) :
    runDeleteLoop p action dests client w = issueAll p (dests.map (deleteCall action)) w := by
  induction dests generalizing w client with
  | nil => rfl
  | cons dest rest ih =>
    simp only [runDeleteLoop, issueAll, List.map_cons, World.issue, Client.SetRegion, ih]
    rfl

theorem answerAt_zero (p : Platform) (before : List Call) (c : Call) (cs : List Call) :
    answerAt p before (c :: cs) 0 = p.respond before c := by
  simp [answerAt]

theorem answerAt_succ (p : Platform) (before : List Call) (c : Call) (cs : List Call) (i : Nat) :
    answerAt p before (c :: cs) (i + 1) = answerAt p (before ++ [c]) cs i := by
  simp [answerAt]

/-- No call fails: all are issued and nothing is logged. -/
theorem issueAll_all_ok (p : Platform) (cs : List Call) (w : World)
    (h : ∀ i, i < cs.length → answerAt p w.calls cs i = none) :
    issueAll p cs w = ({ w with calls := w.calls ++ cs }, none) := by
  induction cs generalizing w with
  | nil => simp [issueAll]
  | cons c cs ih =>
    have h0 := h 0 (by simp)
    rw [answerAt_zero] at h0
    have hrest : ∀ i, i < cs.length →
        answerAt p ({ w with calls := w.calls ++ [c] } : World).calls cs i = none := by
      intro i hi
      have := h (i + 1) (by simpa using hi)
      rwa [answerAt_succ] at this
    simp only [issueAll, World.issue, h0]
    rw [ih _ hrest]
    simp

/-- The `k`-th call is the first to fail: the calls up to it are issued, its
error is logged once and returned. -/
theorem issueAll_first_failure (p : Platform) (cs : List Call) (w : World) (k : Nat) (e : String)
    (hok : ∀ i, i < k → answerAt p w.calls cs i = none)
    (hfail : answerAt p w.calls cs k = some e) :
    issueAll p cs w =
      ({ calls := w.calls ++ cs.take (k + 1), logged := w.logged ++ [e], out := w.out },
        some e) := by
  induction cs generalizing w k with
  | nil => simp [answerAt] at hfail
  | cons c cs ih =>
    cases k with
    | zero =>
      rw [answerAt_zero] at hfail
      simp [issueAll, World.issue, hfail, World.logError]
    | succ k =>
      have h0 := hok 0 (by simp)
      rw [answerAt_zero] at h0
      have hrest : ∀ i, i < k →
          answerAt p ({ w with calls := w.calls ++ [c] } : World).calls cs i = none := by
        intro i hi
        have := hok (i + 1) (by simpa using hi)
        rwa [answerAt_succ] at this
      rw [answerAt_succ] at hfail
      simp only [issueAll, World.issue, h0]
      rw [ih _ k hrest hfail]
      simp

/-- Either no call fails or some call is the first to fail. -/
theorem answerAt_cases (p : Platform) (before cs : List Call) :
    (∀ i, i < cs.length → answerAt p before cs i = none) ∨
    ∃ k e, k < cs.length ∧ (∀ i, i < k → answerAt p before cs i = none) ∧
      answerAt p before cs k = some e := by
  by_cases h : ∃ k, answerAt p before cs k ≠ none
  · right
    classical
    refine ⟨Nat.find h, ?_⟩
    have hk := Nat.find_spec h
    obtain ⟨e, he⟩ := Option.ne_none_iff_exists'.mp hk
    refine ⟨e, ?_, ?_, he⟩
    · by_contra hlt
      have : cs[Nat.find h]? = none := List.getElem?_eq_none (Nat.le_of_not_lt hlt)
      simp [answerAt, this] at he
    · intro i hi
      have := Nat.find_min h hi
      simpa using this
  · left
    intro i _
    by_contra hne
    exact h ⟨i, hne⟩

theorem answerAt_take (p : Platform) (before cs : List Call) (n i : Nat) (hi : i < n) :
    answerAt p before (cs.take n) i = answerAt p before cs i := by
  simp [answerAt, List.getElem?_take, hi, List.take_take, Nat.min_eq_left (Nat.le_of_lt hi)]

/-! ## `strings.Split` -/

theorem splitComma_ne_nil (s : List Char) : splitComma s ≠ [] := by
  cases s with
  | nil => simp [splitComma]
  | cons c cs =>
    simp only [splitComma]
    split
    · simp
    · split <;> simp

theorem intercalate_splitComma (s : List Char) : [','].intercalate (splitComma s) = s := by
  induction s with
  | nil => simp [splitComma, List.intercalate]
  | cons c cs ih =>
    simp only [splitComma]
    split
    · next h =>
      subst h
      cases hs : splitComma cs with
      | nil => exact absurd hs (splitComma_ne_nil cs)
      | cons t ts =>
        rw [hs] at ih
        rw [← ih]
        simp [List.intercalate, List.intersperse]
    · cases hs : splitComma cs with
      | nil => exact absurd hs (splitComma_ne_nil cs)
      | cons t ts =>
        rw [hs] at ih
        rw [← ih]
        cases ts <;> simp [List.intercalate, List.intersperse]

theorem splitComma_no_comma (s : List Char) : ∀ t ∈ splitComma s, ',' ∉ t := by
  induction s with
  | nil => simp [splitComma]
  | cons c cs ih =>
    simp only [splitComma]
    split
    · intro t ht
      rcases List.mem_cons.mp ht with rfl | ht
      · simp
      · exact ih t ht
    · next hc =>
      cases hs : splitComma cs with
      | nil => exact absurd hs (splitComma_ne_nil cs)
      | cons t ts =>
        rw [hs] at ih
        intro u hu
        rcases List.mem_cons.mp hu with rfl | hu
        · have := ih t (List.mem_cons_self _ _)
          simp only [List.mem_cons, not_or]
          exact ⟨fun h => hc h.symm, this⟩
        · exact ih u (List.mem_cons_of_mem _ hu)

theorem length_splitComma (s : List Char) : (splitComma s).length = s.count ',' + 1 := by
  induction s with
  | nil => simp [splitComma]
  | cons c cs ih =>
    simp only [splitComma]
    split
    · next h => subst h; simp [ih]
    · next hc =>
      cases hs : splitComma cs with
      | nil => exact absurd hs (splitComma_ne_nil cs)
      | cons t ts =>
        rw [hs] at ih
        rw [List.count_cons_of_ne (fun h => hc h.symm)]
        simpa using ih

/-- The model agrees with the library's list splitting. -/
theorem splitComma_eq_splitOn (s : List Char) : splitComma s = s.splitOn ',' := by
  have h := List.splitOn_intercalate (splitComma s) ',' (splitComma_no_comma s)
    (splitComma_ne_nil s)
  rw [intercalate_splitComma] at h
  exact h.symm

theorem intercalate_go_data (sep acc : String) (l : List String) :
    (String.intercalate.go acc sep l).data
      = acc.data ++ (l.map (fun t => sep.data ++ t.data)).flatten := by
  induction l generalizing acc with
  | nil => simp [String.intercalate.go]
  | cons a l ih => simp [String.intercalate.go, ih]

theorem flatten_intersperse_cons (sep a : List Char) (l : List (List Char)) :
    ((a :: l).intersperse sep).flatten = a ++ (l.map (fun t => sep ++ t)).flatten := by
  induction l generalizing a with
  | nil => simp
  | cons b l ih =>
    rw [List.intersperse_cons₂, List.flatten_cons, List.flatten_cons, ih b]
    simp

theorem intercalate_data (sep : String) (l : List String) :
    (sep.intercalate l).data = sep.data.intercalate (l.map String.data) := by
  cases l with
  | nil => simp [String.intercalate, List.intercalate]
  | cons a l =>
    simp only [String.intercalate, intercalate_go_data, List.intercalate, List.map_cons,
      flatten_intersperse_cons, List.map_map]
    rfl

theorem intercalate_stringsSplit (s : String) : ",".intercalate (stringsSplit s) = s := by
  apply String.ext
  rw [intercalate_data]
  simp only [stringsSplit, List.map_map]
  have : (String.data ∘ String.mk) = id := by funext x; rfl
  rw [this, List.map_id]
  exact intercalate_splitComma s.data

/-! ## Effects the dispatch never has -/

theorem issueAll_out (p : Platform) (cs : List Call) (w : World) :
    (issueAll p cs w).1.out = w.out := by
  induction cs generalizing w with
  | nil => rfl
  | cons c cs ih =>
    simp only [issueAll, World.issue]
    cases p.respond w.calls c with
    | none => simp [ih]
    | some e => simp [World.logError]

theorem runCreate_eq_issueAll (p : Platform) (w : World) (action : Action)
    (hprovider : p.providerErr = none) (hclient : p.clientErr = none) :
    runCreate p w action = issueAll p (action.DestinationRegions.map (copyCall action)) w := by
  simp only [runCreate, hprovider, hclient]
  exact runCreateLoop_eq_issueAll p action _ rfl _ w

theorem runDelete_eq_issueAll (p : Platform) (w : World) (action : Action)
    (hprovider : p.providerErr = none) (hclient : p.clientErr = none) :
    runDelete p w action = issueAll p (action.DestinationRegions.map (deleteCall action)) w := by
  simp only [runDelete, hprovider, hclient]
  exact runDeleteLoop_eq_issueAll p action _ _ w

theorem runCreate_out (p : Platform) (w : World) (action : Action) :
    (runCreate p w action).1.out = w.out := by
  unfold runCreate
  cases hp : p.providerErr with
  | some e => rfl
  | none =>
    cases hc : p.clientErr with
    | some e => rfl
    | none =>
      simp only
      rw [runCreateLoop_eq_issueAll p action _ rfl, issueAll_out]

theorem runDelete_out (p : Platform) (w : World) (action : Action) :
    (runDelete p w action).1.out = w.out := by
  unfold runDelete
  cases hp : p.providerErr with
  | some e => rfl
  | none =>
    cases hc : p.clientErr with
    | some e => rfl
    | none =>
      simp only
      rw [runDeleteLoop_eq_issueAll, issueAll_out]

theorem runAction_out (p : Platform) (w : World) (action : Action) :
    (runAction p w action).1.out = w.out := by
  unfold runAction
  split
  · exact runCreate_out p w action
  · split
    · exact runDelete_out p w action
    · rfl

theorem actionTypeDelete_ne_create : actionTypeDelete ≠ actionTypeCreate := by decide

theorem actionTypeDelete_ne_update : actionTypeDelete ≠ actionTypeUpdate := by decide

theorem runAction_of_copy (p : Platform) (w : World) (action : Action)
    (htype : action.ActionType = actionTypeCreate ∨ action.ActionType = actionTypeUpdate) :
    runAction p w action = runCreate p w action := by
  simp [runAction, htype]

theorem runAction_of_delete (p : Platform) (w : World) (action : Action)
    (htype : action.ActionType = actionTypeDelete) :
    runAction p w action = runDelete p w action := by
  simp [runAction, htype, actionTypeDelete_ne_create, actionTypeDelete_ne_update]

/-! ## `generateAction` by cases on the environment -/

theorem generateAction_of_set (LookupEnv : String → Option String) (ctx : Context)
    (input : EventsInput) (b s d : String)
    (hb : LookupEnv envBucketName = some b) (hs : LookupEnv envSourceRegion = some s)
    (hd : LookupEnv envDestinationRegions = some d) :
    generateAction LookupEnv ctx input =
      ({ Namespace := input.Data.AdditionalDetails.Namespace
         BucketName := b
         ObjectName := input.Data.ResourceName
         ActionType := input.EventType
         SourceRegion := s
         DestinationRegions := stringsSplit d
         ctx := some ctx }, none) := by
  simp [generateAction, hb, hs, hd]

theorem generateAction_ok_iff (LookupEnv : String → Option String) (ctx : Context)
    (input : EventsInput) :
    (generateAction LookupEnv ctx input).2 = none ↔
      LookupEnv envBucketName ≠ none ∧ LookupEnv envSourceRegion ≠ none ∧
        LookupEnv envDestinationRegions ≠ none := by
  unfold generateAction
  cases LookupEnv envBucketName <;> cases LookupEnv envSourceRegion <;>
    cases LookupEnv envDestinationRegions <;> simp

theorem fnMain_of_generateAction_error (p : Platform) (ctx : Context) (input : EventsInput)
    (msg : String) (h : (generateAction p.LookupEnv ctx input).2 = some msg) :
    fnMain p ctx input = { calls := [], logged := [msg], out := [] } := by
  unfold fnMain
  cases hgen : generateAction p.LookupEnv ctx input with
  | mk a err =>
    rw [hgen] at h
    simp only at h
    subst h
    rfl

/-! ## Claims -/

/-- C1. For an intent of the create-object or the update-object type, when the
client is set up and every storage call succeeds, `runAction` issues exactly
one copy call per destination, in the order of the destination list, and no
delete call.  The call for a destination is made with the client pointed at the
source region, names that destination as destination region, uses the intent's
namespace and bucket on both sides, and the intent's object name as source and
as destination object name.  Nothing is logged and no error is returned. -/
theorem runAction_create_update_copies (p : Platform) (w : World) (action : Action)
    (htype : action.ActionType = actionTypeCreate ∨ action.ActionType = actionTypeUpdate)
    (hprovider : p.providerErr = none) (hclient : p.clientErr = none)
    (hcalls : ∀ before c, p.respond before c = none) :
    runAction p w action =
      ({ w with
          calls := w.calls ++ action.DestinationRegions.map (fun dest =>
            Call.CopyObject action.ctx action.SourceRegion
              { NamespaceName := action.Namespace
                BucketName := action.BucketName
                CopyObjectDetails :=
                  { SourceObjectName := action.ObjectName
                    DestinationRegion := dest
                    DestinationNamespace := action.Namespace
                    DestinationBucket := action.BucketName
                    DestinationObjectName := action.ObjectName } }) },
        none) := by
  rw [runAction_of_copy p w action htype, runCreate_eq_issueAll p w action hprovider hclient]
  apply issueAll_all_ok
  intro i _
  simp only [answerAt]
  split
  · rfl
  · exact hcalls _ _

theorem runAction_create_update_copies_witness :
    (intentOf actionTypeUpdate ["eu-1", "us-1"]).ActionType = actionTypeUpdate ∧
    runAction (healthyPlatform "eu-1,us-1") {} (intentOf actionTypeUpdate ["eu-1", "us-1"]) =
      ({ calls :=
          [ Call.CopyObject (some ⟨7⟩) "src-1"
              ⟨"ns", "bucket", ⟨"photo.png", "eu-1", "ns", "bucket", "photo.png"⟩⟩,
            Call.CopyObject (some ⟨7⟩) "src-1"
              ⟨"ns", "bucket", ⟨"photo.png", "us-1", "ns", "bucket", "photo.png"⟩⟩ ]
         logged := []
         out := [] }, none) :=
  ⟨rfl, runAction_create_update_copies (healthyPlatform "eu-1,us-1") {}
    (intentOf actionTypeUpdate ["eu-1", "us-1"]) (Or.inr rfl) rfl rfl (fun _ _ => rfl)⟩

/-- C2. For an intent of the delete-object type, when the client is set up and
every storage call succeeds, `runAction` issues exactly one delete call per
destination, in the order of the destination list, and no copy call.  The call
for a destination is made with the client pointed at that destination and names
the intent's namespace, bucket and object name.  Nothing is logged and no error
is returned. -/
theorem runAction_delete_deletes (p : Platform) (w : World) (action : Action)
    (htype : action.ActionType = actionTypeDelete)
    (hprovider : p.providerErr = none) (hclient : p.clientErr = none)
    (hcalls : ∀ before c, p.respond before c = none) :
    runAction p w action =
      ({ w with
          calls := w.calls ++ action.DestinationRegions.map (fun dest =>
            Call.DeleteObject action.ctx dest
              { NamespaceName := action.Namespace
                BucketName := action.BucketName
                ObjectName := action.ObjectName }) },
        none) := by
  rw [runAction_of_delete p w action htype, runDelete_eq_issueAll p w action hprovider hclient]
  apply issueAll_all_ok
  intro i _
  simp only [answerAt]
  split
  · rfl
  · exact hcalls _ _

theorem runAction_delete_deletes_witness :
    (intentOf actionTypeDelete ["eu-1", "us-1"]).ActionType = actionTypeDelete ∧
    runAction (healthyPlatform "eu-1,us-1") {} (intentOf actionTypeDelete ["eu-1", "us-1"]) =
      ({ calls :=
          [ Call.DeleteObject (some ⟨7⟩) "eu-1" ⟨"ns", "bucket", "photo.png"⟩,
            Call.DeleteObject (some ⟨7⟩) "us-1" ⟨"ns", "bucket", "photo.png"⟩ ]
         logged := []
         out := [] }, none) :=
  ⟨rfl, runAction_delete_deletes (healthyPlatform "eu-1,us-1") {}
    (intentOf actionTypeDelete ["eu-1", "us-1"]) rfl rfl rfl (fun _ _ => rfl)⟩

/-- C3, as stated, fails: for the event type
`com.oraclecloud.objectstorage.createbucket`, which is none of the three known
types, `runAction` returns an error, and `fnMain` logs it and does not write the
completion marker. -/
theorem unknown_type_is_reported_as_error :
    runAction (healthyPlatform "eu-1,us-1") {}
        (intentOf "com.oraclecloud.objectstorage.createbucket" ["eu-1", "us-1"]) =
      ({}, some "do nothing. ActionType : com.oraclecloud.objectstorage.createbucket") ∧
    fnMain (healthyPlatform "eu-1,us-1") ⟨7⟩
        (eventOf "com.oraclecloud.objectstorage.createbucket") =
      { calls := []
        logged := ["do nothing. ActionType : com.oraclecloud.objectstorage.createbucket"]
        out := [] } := by
  decide

/-- C3, amended.  For an event type that is none of the create-object,
update-object and delete-object strings (compared exactly), `runAction` issues
no storage call and logs nothing, and returns the error
`do nothing. ActionType : ` followed by the type.  `fnMain` on such an event
issues no storage call, writes nothing to the output, and logs exactly one
error: the error of `generateAction` when a required variable is not set, and
otherwise the `do nothing. ActionType : ` error of `runAction`. -/
theorem runAction_unknown_type (p : Platform) (w : World) (action : Action) (ctx : Context)
    (input : EventsInput)
    (hcreate : action.ActionType ≠ actionTypeCreate)
    (hupdate : action.ActionType ≠ actionTypeUpdate)
    (hdelete : action.ActionType ≠ actionTypeDelete)
    (hinput : input.EventType = action.ActionType) :
    runAction p w action = (w, some ("do nothing. ActionType : " ++ action.ActionType)) ∧
    fnMain p ctx input =
      { calls := []
        logged :=
          [match (generateAction p.LookupEnv ctx input).2 with
           | some err => err
           | none => "do nothing. ActionType : " ++ input.EventType]
        out := [] } := by
  have hrun : ∀ a : Action, a.ActionType = action.ActionType → ∀ w0 : World,
      runAction p w0 a = (w0, some ("do nothing. ActionType : " ++ a.ActionType)) := by
    intro a ha w0
    simp [runAction, ha, hcreate, hupdate, hdelete]
  refine ⟨hrun action rfl w, ?_⟩
  cases hgen : (generateAction p.LookupEnv ctx input).2 with
  | some e =>
    rw [fnMain_of_generateAction_error p ctx input e hgen]
  | none =>
    obtain ⟨hb, hs, hd⟩ := (generateAction_ok_iff p.LookupEnv ctx input).mp hgen
    obtain ⟨b, hb⟩ := Option.ne_none_iff_exists'.mp hb
    obtain ⟨s, hs⟩ := Option.ne_none_iff_exists'.mp hs
    obtain ⟨d, hd⟩ := Option.ne_none_iff_exists'.mp hd
    simp only [fnMain, generateAction_of_set p.LookupEnv ctx input b s d hb hs hd]
    rw [hrun _ hinput]
    rfl

theorem runAction_unknown_type_witness :
    (runAction (healthyPlatform "eu-1,us-1") {}
        (intentOf "COM.ORACLECLOUD.OBJECTSTORAGE.CREATEOBJECT" ["eu-1", "us-1"]) =
      ({}, some "do nothing. ActionType : COM.ORACLECLOUD.OBJECTSTORAGE.CREATEOBJECT") ∧
     fnMain (healthyPlatform "eu-1,us-1") ⟨7⟩
        (eventOf "COM.ORACLECLOUD.OBJECTSTORAGE.CREATEOBJECT") =
      { calls := []
        logged := ["do nothing. ActionType : COM.ORACLECLOUD.OBJECTSTORAGE.CREATEOBJECT"]
        out := [] }) ∧
    fnMain ⟨envOf none (some "src-1") (some "eu-1,us-1"), none, none, fun _ _ => none⟩ ⟨7⟩
        (eventOf "COM.ORACLECLOUD.OBJECTSTORAGE.CREATEOBJECT") =
      { calls := []
        logged := ["can not read envBucketName from environment variable OCI_BUCKETNAME"]
        out := [] } :=
  ⟨runAction_unknown_type (healthyPlatform "eu-1,us-1") {}
      (intentOf "COM.ORACLECLOUD.OBJECTSTORAGE.CREATEOBJECT" ["eu-1", "us-1"]) ⟨7⟩
      (eventOf "COM.ORACLECLOUD.OBJECTSTORAGE.CREATEOBJECT")
      (by decide) (by decide) (by decide) rfl,
   (runAction_unknown_type
      ⟨envOf none (some "src-1") (some "eu-1,us-1"), none, none, fun _ _ => none⟩ {}
      (intentOf "COM.ORACLECLOUD.OBJECTSTORAGE.CREATEOBJECT" ["eu-1", "us-1"]) ⟨7⟩
      (eventOf "COM.ORACLECLOUD.OBJECTSTORAGE.CREATEOBJECT")
      (by decide) (by decide) (by decide) rfl).2⟩

/-- C4, as stated, fails: with destinations `eu-1`, `us-1` and the copy to
`eu-1` failing, `runAction` issues the call for `eu-1` only; `us-1`, which comes
after the failure, is never attempted. -/
theorem failure_skips_later_destinations :
    (intentOf actionTypeCreate ["eu-1", "us-1"]).DestinationRegions = ["eu-1", "us-1"] ∧
    runAction euDownPlatform {} (intentOf actionTypeCreate ["eu-1", "us-1"]) =
      ({ calls :=
          [ Call.CopyObject (some ⟨7⟩) "src-1"
              ⟨"ns", "bucket", ⟨"photo.png", "eu-1", "ns", "bucket", "photo.png"⟩⟩ ]
         logged := ["eu-1 is down"]
         out := [] }, some "eu-1 is down") := by
  decide

/-- C4, amended.  For a copy or delete intent dispatched from a fresh world with
the client set up, whatever the service answers: the calls issued are an initial
segment of the planned calls (one per destination, in the order of the
destination list), so every destination is attempted at most once; every issued
call other than the last succeeded, so nothing is attempted after a failure; if
no error is returned every destination was attempted; and an error is returned
if and only if one of the issued calls failed. -/
theorem runAction_attempts_until_first_failure (p : Platform) (action : Action)
    (htype : action.ActionType = actionTypeCreate ∨ action.ActionType = actionTypeUpdate ∨
      action.ActionType = actionTypeDelete)
    (hprovider : p.providerErr = none) (hclient : p.clientErr = none) :
    (runAction p {} action).1.calls <+: plannedCalls action ∧
    (∀ i, i + 1 < (runAction p {} action).1.calls.length →
      answerAt p [] (runAction p {} action).1.calls i = none) ∧
    ((runAction p {} action).2 = none →
      (runAction p {} action).1.calls = plannedCalls action) ∧
    ((runAction p {} action).2 ≠ none ↔
      ∃ i, i < (runAction p {} action).1.calls.length ∧
        answerAt p [] (runAction p {} action).1.calls i ≠ none) := by
  have hrun : runAction p {} action = issueAll p (plannedCalls action) {} := by
    unfold plannedCalls
    by_cases hd : action.ActionType = actionTypeDelete
    · rw [runAction_of_delete p _ action hd, runDelete_eq_issueAll p _ action hprovider hclient,
        if_pos hd]
    · have hc : action.ActionType = actionTypeCreate ∨ action.ActionType = actionTypeUpdate := by
        rcases htype with h | h | h
        · exact Or.inl h
        · exact Or.inr h
        · exact absurd h hd
      rw [runAction_of_copy p _ action hc, runCreate_eq_issueAll p _ action hprovider hclient,
        if_neg hd]
  rw [hrun]
  generalize plannedCalls action = cs
  have hnil : ({} : World).calls = [] := rfl
  rcases answerAt_cases p [] cs with hall | ⟨k, e, hk, hok, hfail⟩
  · rw [issueAll_all_ok p cs {} (by rw [hnil]; exact hall)]
    simp only [hnil, List.nil_append]
    refine ⟨List.prefix_refl cs, fun i hi => hall i (by omega), fun _ => ?_, ?_⟩
    · trivial
    · constructor
      · intro h; exact absurd rfl h
      · rintro ⟨i, hi, hne⟩; exact absurd (hall i hi) hne
  · rw [issueAll_first_failure p cs {} k e (by rw [hnil]; exact hok) (by rw [hnil]; exact hfail)]
    simp only [hnil, List.nil_append]
    refine ⟨List.take_prefix _ cs, ?_, ?_, ?_⟩
    · intro i hi
      have hik : i < k := by
        have := List.length_take_le (k + 1) cs
        omega
      rw [answerAt_take p [] cs (k + 1) i (by omega)]
      exact hok i hik
    · intro h; cases h
    · constructor
      · intro _
        refine ⟨k, ?_, ?_⟩
        · rw [List.length_take]; omega
        · rw [answerAt_take p [] cs (k + 1) k (by omega), hfail]; simp
      · intro _; simp

theorem runAction_attempts_until_first_failure_witness :
    (runAction euDownPlatform {} deleteThree).1.calls <+: plannedCalls deleteThree ∧
    (∀ i, i + 1 < (runAction euDownPlatform {} deleteThree).1.calls.length →
      answerAt euDownPlatform [] (runAction euDownPlatform {} deleteThree).1.calls i = none) ∧
    ((runAction euDownPlatform {} deleteThree).2 = none →
      (runAction euDownPlatform {} deleteThree).1.calls = plannedCalls deleteThree) ∧
    ((runAction euDownPlatform {} deleteThree).2 ≠ none ↔
      ∃ i, i < (runAction euDownPlatform {} deleteThree).1.calls.length ∧
        answerAt euDownPlatform [] (runAction euDownPlatform {} deleteThree).1.calls i ≠ none) :=
  runAction_attempts_until_first_failure euDownPlatform deleteThree (Or.inr (Or.inr rfl)) rfl rfl

/-- C5. When at least one of `OCI_BUCKETNAME`, `OCI_SOURCE_REGION` and
`OCI_DESTINATION_REGIONS` is not set, `generateAction` returns an error whose
message contains the name of the first of them, in that order, that is not set,
and `fnMain` issues no storage call and writes nothing to the output. -/
theorem generateAction_missing_variable (p : Platform) (ctx : Context) (input : EventsInput)
    (h : p.LookupEnv envBucketName = none ∨ p.LookupEnv envSourceRegion = none ∨
      p.LookupEnv envDestinationRegions = none) :
    ∃ name msg, firstMissing p.LookupEnv = some name ∧ p.LookupEnv name = none ∧
      (generateAction p.LookupEnv ctx input).2 = some msg ∧ name.data <:+: msg.data ∧
      (fnMain p ctx input).calls = [] ∧ (fnMain p ctx input).out = [] := by
  have key : ∃ name msg, firstMissing p.LookupEnv = some name ∧ p.LookupEnv name = none ∧
      (generateAction p.LookupEnv ctx input).2 = some msg ∧ name.data <:+: msg.data := by
    cases hb : p.LookupEnv envBucketName with
    | none =>
      refine ⟨envBucketName,
        "can not read envBucketName from environment variable " ++ envBucketName, ?_, hb, ?_, ?_⟩
      · simp [firstMissing, requiredVariables, hb]
      · simp only [generateAction, hb]
      · exact ⟨"can not read envBucketName from environment variable ".data, [], by
          simp [String.data_append]⟩
    | some b =>
      cases hs : p.LookupEnv envSourceRegion with
      | none =>
        refine ⟨envSourceRegion,
          "can not read envSourceRegion from environment variable " ++ envSourceRegion, ?_, hs, ?_, ?_⟩
        · simp [firstMissing, requiredVariables, hb, hs]
        · simp only [generateAction, hb, hs]
        · exact ⟨"can not read envSourceRegion from environment variable ".data, [], by
            simp [String.data_append]⟩
      | some s =>
        cases hd : p.LookupEnv envDestinationRegions with
        | none =>
          refine ⟨envDestinationRegions,
            "can not read envDestinationRegions from environment variable " ++ envDestinationRegions, ?_, hd, ?_, ?_⟩
          · simp [firstMissing, requiredVariables, hb, hs, hd]
          · simp only [generateAction, hb, hs, hd]
          · exact ⟨"can not read envDestinationRegions from environment variable ".data, [], by
              simp [String.data_append]⟩
        | some d => simp [hb, hs, hd] at h
  obtain ⟨name, msg, h1, h2, h3, h4⟩ := key
  refine ⟨name, msg, h1, h2, h3, h4, ?_⟩
  rw [fnMain_of_generateAction_error p ctx input msg h3]
  exact ⟨rfl, rfl⟩

theorem generateAction_missing_variable_witness :
    ∃ name msg,
      firstMissing (envOf (some "bucket") none none) = some name ∧
      envOf (some "bucket") none none name = none ∧
      (generateAction (envOf (some "bucket") none none) ⟨7⟩ (eventOf actionTypeCreate)).2
        = some msg ∧
      name.data <:+: msg.data ∧
      (fnMain ⟨envOf (some "bucket") none none, none, none, fun _ _ => none⟩ ⟨7⟩
        (eventOf actionTypeCreate)).calls = [] ∧
      (fnMain ⟨envOf (some "bucket") none none, none, none, fun _ _ => none⟩ ⟨7⟩
        (eventOf actionTypeCreate)).out = [] :=
  generateAction_missing_variable ⟨envOf (some "bucket") none none, none, none, fun _ _ => none⟩
    ⟨7⟩ (eventOf actionTypeCreate) (Or.inr (Or.inl rfl))

/-- C6, as stated, fails: for the value `eu-1, us-1,` the resolved destination
list keeps the blank in front of `us-1` and keeps the empty token after the
last comma, and resolution returns no error. -/
theorem destinations_untrimmed_and_empty_kept :
    generateAction (envOf (some "bucket") (some "src-1") (some "eu-1, us-1,")) ⟨7⟩
        (eventOf actionTypeCreate) =
      ({ Namespace := "ns"
         BucketName := "bucket"
         ObjectName := "photo.png"
         ActionType := actionTypeCreate
         SourceRegion := "src-1"
         DestinationRegions := ["eu-1", " us-1", ""]
         ctx := some ⟨7⟩ }, none) := by
  decide

/-- C6, amended.  When the three variables are set, resolution returns no error
whatever the value of the destination-regions variable, and the destination list
is that value cut at its commas with nothing trimmed and nothing dropped: joining
the tokens with commas gives back the value character for character, no token
contains a comma, and there is one token more than there are commas (so the
empty value yields the single empty token). -/
theorem generateAction_destinations_verbatim (LookupEnv : String → Option String)
    (ctx : Context) (input : EventsInput) (b s d : String)
    (hb : LookupEnv envBucketName = some b) (hs : LookupEnv envSourceRegion = some s)
    (hd : LookupEnv envDestinationRegions = some d) :
    (generateAction LookupEnv ctx input).2 = none ∧
    ",".intercalate (generateAction LookupEnv ctx input).1.DestinationRegions = d ∧
    (∀ t ∈ (generateAction LookupEnv ctx input).1.DestinationRegions, ',' ∉ t.data) ∧
    (generateAction LookupEnv ctx input).1.DestinationRegions.length = d.data.count ',' + 1 := by
  rw [generateAction_of_set LookupEnv ctx input b s d hb hs hd]
  refine ⟨rfl, intercalate_stringsSplit d, ?_, ?_⟩
  · intro t ht
    simp only [stringsSplit, List.mem_map] at ht
    obtain ⟨u, hu, rfl⟩ := ht
    exact splitComma_no_comma d.data u hu
  · simp [stringsSplit, length_splitComma]

theorem generateAction_destinations_verbatim_witness :
    (generateAction (envOf (some "bucket") (some "src-1") (some " eu-1 ,,us-1")) ⟨7⟩
      (eventOf actionTypeDelete)).2 = none ∧
    ",".intercalate (generateAction (envOf (some "bucket") (some "src-1") (some " eu-1 ,,us-1"))
      ⟨7⟩ (eventOf actionTypeDelete)).1.DestinationRegions = " eu-1 ,,us-1" ∧
    (∀ t ∈ (generateAction (envOf (some "bucket") (some "src-1") (some " eu-1 ,,us-1")) ⟨7⟩
      (eventOf actionTypeDelete)).1.DestinationRegions, ',' ∉ t.data) ∧
    (generateAction (envOf (some "bucket") (some "src-1") (some " eu-1 ,,us-1")) ⟨7⟩
      (eventOf actionTypeDelete)).1.DestinationRegions.length
        = " eu-1 ,,us-1".data.count ',' + 1 :=
  generateAction_destinations_verbatim (envOf (some "bucket") (some "src-1") (some " eu-1 ,,us-1"))
    ⟨7⟩ (eventOf actionTypeDelete) "bucket" "src-1" " eu-1 ,,us-1" rfl rfl rfl

/-- C7, as stated, fails: an event whose object name and namespace are both
empty is translated without error, and `fnMain` goes on to issue a copy call
for the empty object name and writes the completion marker. -/
theorem empty_identity_is_translated :
    generateAction (envOf (some "bucket") (some "src-1") (some "eu-1")) ⟨7⟩
        { EventType := actionTypeCreate } =
      ({ Namespace := ""
         BucketName := "bucket"
         ObjectName := ""
         ActionType := actionTypeCreate
         SourceRegion := "src-1"
         DestinationRegions := ["eu-1"]
         ctx := some ⟨7⟩ }, none) ∧
    fnMain (healthyPlatform "eu-1") ⟨7⟩ { EventType := actionTypeCreate } =
      { calls :=
          [Call.CopyObject (some ⟨7⟩) "src-1" ⟨"", "bucket", ⟨"", "eu-1", "", "bucket", ""⟩⟩]
        logged := []
        out := ["Done!"] } := by
  decide

/-- C7, amended.  Translation does not look at the object name or the namespace:
the error `generateAction` returns is the same for every event under a given
environment, and it returns none exactly when the three variables are set.  So
no event fails translation because of its object name or namespace, empty or
not. -/
theorem generateAction_error_independent_of_event (LookupEnv : String → Option String)
    (ctx : Context) (input other : EventsInput) :
    (generateAction LookupEnv ctx input).2 = (generateAction LookupEnv ctx other).2 ∧
    ((generateAction LookupEnv ctx input).2 = none ↔
      LookupEnv envBucketName ≠ none ∧ LookupEnv envSourceRegion ≠ none ∧
        LookupEnv envDestinationRegions ≠ none) := by
  refine ⟨?_, generateAction_ok_iff LookupEnv ctx input⟩
  unfold generateAction
  cases LookupEnv envBucketName <;> cases LookupEnv envSourceRegion <;>
    cases LookupEnv envDestinationRegions <;> rfl

/-- C8. `fnMain` writes exactly the completion marker `Done!` to the output when
`generateAction` and then `runAction` both return no error, and writes nothing
otherwise. -/
theorem fnMain_output (p : Platform) (ctx : Context) (input : EventsInput) :
    (fnMain p ctx input).out =
      if (generateAction p.LookupEnv ctx input).2 = none ∧
          (runAction p {} (generateAction p.LookupEnv ctx input).1).2 = none
      then ["Done!"] else [] := by
  unfold fnMain
  cases hgen : generateAction p.LookupEnv ctx input with
  | mk a err =>
    cases err with
    | some e => simp [World.logError]
    | none =>
      have hout := runAction_out p {} a
      cases hrun : runAction p {} a with
      | mk w1 err1 =>
        rw [hrun] at hout
        simp only at hout
        cases err1 with
        | some e => simp [World.logError, hout, hrun]
        | none => simp [hout, hrun]

/-- C9. When translation succeeds, the intent carries the event's object name
(`data.resourceName`), its namespace (the `namespace` of the event's data, which
the decoded event holds under `additionalDetails`) and its event type, each
unchanged. -/
theorem generateAction_identity_fields (LookupEnv : String → Option String) (ctx : Context)
    (input : EventsInput) (h : (generateAction LookupEnv ctx input).2 = none) :
    (generateAction LookupEnv ctx input).1.ObjectName = input.Data.ResourceName ∧
    (generateAction LookupEnv ctx input).1.Namespace = input.Data.AdditionalDetails.Namespace ∧
    (generateAction LookupEnv ctx input).1.ActionType = input.EventType := by
  rw [generateAction_ok_iff] at h
  obtain ⟨hb, hs, hd⟩ := h
  obtain ⟨b, hb⟩ := Option.ne_none_iff_exists'.mp hb
  obtain ⟨s, hs⟩ := Option.ne_none_iff_exists'.mp hs
  obtain ⟨d, hd⟩ := Option.ne_none_iff_exists'.mp hd
  rw [generateAction_of_set LookupEnv ctx input b s d hb hs hd]
  exact ⟨rfl, rfl, rfl⟩

theorem generateAction_identity_fields_witness :
    (generateAction (envOf (some "bucket") (some "src-1") (some "eu-1")) ⟨7⟩
      paddedEvent).1.ObjectName = " Dir/Photo.PNG " ∧
    (generateAction (envOf (some "bucket") (some "src-1") (some "eu-1")) ⟨7⟩
      paddedEvent).1.Namespace = " NS " ∧
    (generateAction (envOf (some "bucket") (some "src-1") (some "eu-1")) ⟨7⟩
      paddedEvent).1.ActionType = " Mixed.Case " :=
  generateAction_identity_fields (envOf (some "bucket") (some "src-1") (some "eu-1")) ⟨7⟩
    paddedEvent (by decide)

/-- C10. With the client set up, `runCreate` and `runDelete` stop at the first
failing call.  If the calls for the destinations before index `k` succeed and
the call for destination `k` is answered with the error `e`, exactly the calls
for the first `k + 1` destinations are issued, in order, `e` is logged once, and
`e` itself is returned; nothing records the destinations after `k`.  If no call
fails, the calls for all destinations are issued and no error is returned. -/
theorem runCreate_runDelete_stop_at_first_failure (p : Platform) (w : World) (action : Action)
    (hprovider : p.providerErr = none) (hclient : p.clientErr = none) :
    (∀ k e,
      (∀ i, i < k →
        answerAt p w.calls (action.DestinationRegions.map (copyCall action)) i = none) →
      answerAt p w.calls (action.DestinationRegions.map (copyCall action)) k = some e →
      runCreate p w action =
        ({ calls := w.calls ++ (action.DestinationRegions.take (k + 1)).map (copyCall action)
           logged := w.logged ++ [e]
           out := w.out }, some e)) ∧
    ((∀ i, i < action.DestinationRegions.length →
        answerAt p w.calls (action.DestinationRegions.map (copyCall action)) i = none) →
      runCreate p w action =
        ({ w with calls := w.calls ++ action.DestinationRegions.map (copyCall action) }, none)) ∧
    (∀ k e,
      (∀ i, i < k →
        answerAt p w.calls (action.DestinationRegions.map (deleteCall action)) i = none) →
      answerAt p w.calls (action.DestinationRegions.map (deleteCall action)) k = some e →
      runDelete p w action =
        ({ calls := w.calls ++ (action.DestinationRegions.take (k + 1)).map (deleteCall action)
           logged := w.logged ++ [e]
           out := w.out }, some e)) ∧
    ((∀ i, i < action.DestinationRegions.length →
        answerAt p w.calls (action.DestinationRegions.map (deleteCall action)) i = none) →
      runDelete p w action =
        ({ w with calls := w.calls ++ action.DestinationRegions.map (deleteCall action) },
          none)) := by
  rw [runCreate_eq_issueAll p w action hprovider hclient,
    runDelete_eq_issueAll p w action hprovider hclient]
  refine ⟨?_, ?_, ?_, ?_⟩
  · intro k e hok hfail
    rw [issueAll_first_failure p _ w k e hok hfail, List.map_take]
  · intro hall
    exact issueAll_all_ok p _ w (by simpa using hall)
  · intro k e hok hfail
    rw [issueAll_first_failure p _ w k e hok hfail, List.map_take]
  · intro hall
    exact issueAll_all_ok p _ w (by simpa using hall)

theorem runCreate_runDelete_stop_at_first_failure_witness :
    runCreate euDownPlatform {}
        (intentOf actionTypeCreate ["us-1", "eu-1", "ap-1"]) =
      ({ calls :=
          [ Call.CopyObject (some ⟨7⟩) "src-1"
              ⟨"ns", "bucket", ⟨"photo.png", "us-1", "ns", "bucket", "photo.png"⟩⟩,
            Call.CopyObject (some ⟨7⟩) "src-1"
              ⟨"ns", "bucket", ⟨"photo.png", "eu-1", "ns", "bucket", "photo.png"⟩⟩ ]
         logged := ["eu-1 is down"]
         out := [] }, some "eu-1 is down") ∧
    runDelete euDownPlatform {} deleteThree =
      ({ calls :=
          [ Call.DeleteObject (some ⟨7⟩) "us-1" ⟨"ns", "bucket", "photo.png"⟩,
            Call.DeleteObject (some ⟨7⟩) "eu-1" ⟨"ns", "bucket", "photo.png"⟩ ]
         logged := ["eu-1 is down"]
         out := [] }, some "eu-1 is down") ∧
    runCreate euDownPlatform {} (intentOf actionTypeCreate ["us-1", "ap-1"]) =
      ({ calls :=
          [ Call.CopyObject (some ⟨7⟩) "src-1"
              ⟨"ns", "bucket", ⟨"photo.png", "us-1", "ns", "bucket", "photo.png"⟩⟩,
            Call.CopyObject (some ⟨7⟩) "src-1"
              ⟨"ns", "bucket", ⟨"photo.png", "ap-1", "ns", "bucket", "photo.png"⟩⟩ ]
         logged := []
         out := [] }, none) :=
  ⟨(runCreate_runDelete_stop_at_first_failure euDownPlatform {}
      (intentOf actionTypeCreate ["us-1", "eu-1", "ap-1"]) rfl rfl).1 1 "eu-1 is down"
      (by decide) (by decide),
   (runCreate_runDelete_stop_at_first_failure euDownPlatform {} deleteThree rfl rfl).2.2.1
      1 "eu-1 is down"
      (by decide) (by decide),
   (runCreate_runDelete_stop_at_first_failure euDownPlatform {}
      (intentOf actionTypeCreate ["us-1", "ap-1"]) rfl rfl).2.1 (by decide)⟩

end Multiregioner
